import Mathlib

/-!
Verification of the `cp2077-extractor` CR2W container reader.

This file gives a shallow embedding, in Lean, of the byte-level reading
routines of the repository:

* `cp2077_extractor/utils.py` — `to_snake_case`;
* `cp2077_extractor/cr2w/io.py` — `read_tables` (CRC32-checked fixed
  tables), the header magic/version checks and the string-pool loop of
  `read_file_info`, and `read_c_name`;
* `cp2077_extractor/cr2w/datatypes.py` — `uint`, `get_chunk_variables`,
  `parse_chunk`, `instantiate_type`, `handle` and the static
  `_red_type_lookup` registry.

Byte strings are modelled as `List Nat` (each entry a byte value `< 256`
where it matters); Python's `int.from_bytes(_, "little")` becomes `leNat`;
file objects become explicit remaining-suffix passing; Python exceptions
(`struct.error`, `AssertionError`, `IndexError`, `ValueError`) become
`Option`/`Except` failures.  Enum classes registered at import time from
the `enums` module (that module's source is not part of the embedded
core) are not modelled; no claim below depends on them.
-/

/-- Little-endian unsigned integer value of a byte string: the embedding of
Python's `int.from_bytes(value, byteorder="little")`. -/
def leNat : List Nat → Nat
  | [] => 0
  | b :: bs => b + 256 * leNat bs

/-- The embedding of `datatypes.uint`: `int.from_bytes(value, "little")`,
total over all byte-string lengths. -/
def uint (value : List Nat) : Nat := leNat value

/-- ASCII bytes of `b"None"`. -/
def noneBytes : List Nat := [78, 111, 110, 101]

/-- ASCII bytes of `b"CR2W"`. -/
def cr2wMagic : List Nat := [67, 82, 50, 87]

/-- ASCII bytes of `b"Uint8"`. -/
def uint8Name : List Nat := [85, 105, 110, 116, 56]

/-- ASCII bytes of `b"Uint16"`. -/
def uint16Name : List Nat := [85, 105, 110, 116, 49, 54]

/-- ASCII bytes of `b"Uint32"`. -/
def uint32Name : List Nat := [85, 105, 110, 116, 51, 50]

/-- ASCII bytes of `b"Bool"`. -/
def boolName : List Nat := [66, 111, 111, 108]

/-- ASCII bytes of `b"ECookingPlatform"` (mapped to the `Name` strategy in
`_red_type_lookup`). -/
def eCookingPlatformName : List Nat :=
  [69, 67, 111, 111, 107, 105, 110, 103, 80, 108, 97, 116, 102, 111, 114, 109]

/-- ASCII bytes of `b"STextureGroupSetup"`. -/
def sTextureGroupSetupName : List Nat :=
  [83, 84, 101, 120, 116, 117, 114, 101, 71, 114, 111, 117, 112, 83, 101, 116, 117, 112]

/-- ASCII bytes of `b"rendRenderTextureResource"`. -/
def rendRenderTextureResourceName : List Nat :=
  [114, 101, 110, 100, 82, 101, 110, 100, 101, 114, 84, 101, 120, 116, 117, 114, 101, 82,
   101, 115, 111, 117, 114, 99, 101]

/-- ASCII bytes of `b"rendRenderTextureBlobHeader"`. -/
def rendRenderTextureBlobHeaderName : List Nat :=
  [114, 101, 110, 100, 82, 101, 110, 100, 101, 114, 84, 101, 120, 116, 117, 114, 101, 66,
   108, 111, 98, 72, 101, 97, 100, 101, 114]

/-- ASCII bytes of `b"serializationDeferredDataBuffer"`. -/
def serializationDeferredDataBufferName : List Nat :=
  [115, 101, 114, 105, 97, 108, 105, 122, 97, 116, 105, 111, 110, 68, 101, 102, 101, 114,
   114, 101, 100, 68, 97, 116, 97, 66, 117, 102, 102, 101, 114]

/-- ASCII bytes of `b"handle:IRenderResourceBlob"`. -/
def handleIRenderResourceBlobName : List Nat :=
  [104, 97, 110, 100, 108, 101, 58, 73, 82, 101, 110, 100, 101, 114, 82, 101, 115, 111,
   117, 114, 99, 101, 66, 108, 111, 98]

/-- ASCII bytes of `b"rendRenderTextureBlobSizeInfo"`. -/
def rendRenderTextureBlobSizeInfoName : List Nat :=
  [114, 101, 110, 100, 82, 101, 110, 100, 101, 114, 84, 101, 120, 116, 117, 114, 101, 66,
   108, 111, 98, 83, 105, 122, 101, 73, 110, 102, 111]

/-- ASCII bytes of `b"rendRenderTextureBlobTextureInfo"`. -/
def rendRenderTextureBlobTextureInfoName : List Nat :=
  [114, 101, 110, 100, 82, 101, 110, 100, 101, 114, 84, 101, 120, 116, 117, 114, 101, 66,
   108, 111, 98, 84, 101, 120, 116, 117, 114, 101, 73, 110, 102, 111]

/-- ASCII bytes of `b"array:rendRenderTextureBlobMipMapInfo"`. -/
def arrayRendMipMapInfoName : List Nat :=
  [97, 114, 114, 97, 121, 58, 114, 101, 110, 100, 82, 101, 110, 100, 101, 114, 84, 101,
   120, 116, 117, 114, 101, 66, 108, 111, 98, 77, 105, 112, 77, 97, 112, 73, 110, 102, 111]

/-- ASCII bytes of `b"rendRenderTextureBlobPC"`. -/
def rendRenderTextureBlobPCName : List Nat :=
  [114, 101, 110, 100, 82, 101, 110, 100, 101, 114, 84, 101, 120, 116, 117, 114, 101, 66,
   108, 111, 98, 80, 67]

/-- ASCII bytes of `b"CBitmapTexture"`. -/
def cBitmapTextureName : List Nat :=
  [67, 66, 105, 116, 109, 97, 112, 84, 101, 120, 116, 117, 114, 101]

/-! ### `utils.to_snake_case`

The source (`cp2077_extractor/utils.py`, lines 137–149) compiles two
patterns over Unicode character classes and applies them to property
names decoded from the wire format.  Property names in this format are
ASCII identifiers, so the embedding works over byte values and uses the
ASCII fragments of `\p{Ll}` (`a`–`z`), `\p{Lu}` (`A`–`Z`) and `\p{N}`
(`0`–`9`). -/

/-- ASCII fragment of the Unicode class `\p{Ll}` (lowercase letter). -/
def isLl (b : Nat) : Bool := 97 ≤ b && b ≤ 122

/-- ASCII fragment of the Unicode class `\p{Lu}` (uppercase letter). -/
def isLu (b : Nat) : Bool := 65 ≤ b && b ≤ 90

/-- ASCII fragment of the Unicode class `\p{N}` (digit). -/
def isN (b : Nat) : Bool := 48 ≤ b && b ≤ 57

/-- Whether `_case_boundary_re.findall(value)` — pattern
`(\p{Ll})(\p{Lu})` — is non-empty: some lowercase letter is immediately
followed by an uppercase letter. -/
def hasCaseBoundary : List Nat → Bool
  | a :: b :: rest => (isLl a && isLu b) || hasCaseBoundary (b :: rest)
  | _ => false

/-- Whether `_single_letters_re.findall(value)` — pattern
`(\p{Lu}|\p{N})(\p{Lu})(\p{Ll})` — is non-empty. -/
def hasSingleLetters : List Nat → Bool
  | a :: b :: c :: rest => ((isLu a || isN a) && isLu b && isLl c) || hasSingleLetters (b :: c :: rest)
  | _ => false

/-- One left-to-right non-overlapping pass of
`_case_boundary_re.sub(r"\1_\2", value)`: an underscore (byte 95) is
inserted at every lowercase→uppercase boundary; after a match the scan
resumes past the matched pair. -/
def caseBoundarySub : List Nat → List Nat
  | a :: b :: rest =>
      if isLl a && isLu b then a :: 95 :: b :: caseBoundarySub rest
      else a :: caseBoundarySub (b :: rest)
  | l => l

/-- Python `str.lower()` on the ASCII fragment. -/
def byteLower (l : List Nat) : List Nat :=
  l.map fun b => if isLu b then b + 32 else b

/-- The embedding of `utils.to_snake_case` (lines 141–149 of
`cp2077_extractor/utils.py`).  Line 148 of the source applies
`_case_boundary_re` a second time with the three-group replacement
template `\1_\2\3`; that pattern has only two groups, so the `regex`
module raises an invalid-group-reference error as soon as the template is
expanded for a match, which is modelled by `none`.  (The
`_single_letters_re` pattern is compiled and consulted for the emptiness
test on line 144 but never used in a substitution.) -/
def to_snake_case (value : List Nat) : Option (List Nat) :=
  if !hasCaseBoundary value && !hasSingleLetters value then some value
  else
    let v1 := caseBoundarySub value
    if hasCaseBoundary v1 then none else some (byteLower v1)

example : to_snake_case [99, 111, 111, 107, 105, 110, 103, 80, 108, 97, 116] =
    some [99, 111, 111, 107, 105, 110, 103, 95, 112, 108, 97, 116] := by decide

/-! ### CRC32 and `io.read_tables`

`read_tables` (`cp2077_extractor/cr2w/io.py`, lines 59–75) reads
`table_struct._size * header.item_count` bytes, computes
`binascii.crc32` over the raw block, asserts it equals the directory
entry's declared checksum, and only then slices the block into
`item_count` fixed-size records.  `binascii.crc32` is the standard
reflected CRC-32 (polynomial `0xEDB88320`, initial value and final xor
`0xFFFFFFFF`), embedded here by its defining bit-level loop. -/

/-- The reflected CRC-32 polynomial. -/
def crcPoly : Nat := 0xEDB88320

/-- One LFSR step of reflected CRC-32:
`crc = (crc >> 1) ^ (0xEDB88320 if crc & 1 else 0)`. -/
def shiftStep (c : Nat) : Nat := c / 2 ^^^ (if c % 2 = 1 then crcPoly else 0)

/-- `n` iterated LFSR steps (the inner `for _ in range(8)` loop runs this
with `n = 8`). -/
def shiftIter : Nat → Nat → Nat
  | 0, c => c
  | n + 1, c => shiftIter n (shiftStep c)

/-- Folding one input byte into the CRC state:
`crc ^= byte`, then eight LFSR steps. -/
def crcByte (c b : Nat) : Nat := shiftIter 8 (c ^^^ b)

/-- The embedding of `binascii.crc32` on a byte string. -/
def crc32 (bs : List Nat) : Nat := bs.foldl crcByte 0xFFFFFFFF ^^^ 0xFFFFFFFF

/-- A CR2W table-directory entry (`header_structs.CR2WTable`,
format `<III`). -/
structure CR2WTable where
  offset : Nat
  item_count : Nat
  crc32 : Nat

/-- The embedding of `io.read_tables` applied to the remaining bytes `fp`
of the open file: read the raw block, check its CRC32 against the
directory entry's declared checksum (`assert crc32 == header.crc32`,
an `AssertionError` — the spec's `TableChecksumError` — modelled by
`none`), then slice it into `item_count` records of `structSize` bytes.
If the file holds fewer bytes than the block needs, `struct.unpack` on
the short final slice raises, also modelled by `none`; the checksum
comparison happens first, exactly as in the source. -/
def read_tables (fp : List Nat) (structSize : Nat) (header : CR2WTable) :
    Option (List (List Nat) × List Nat) :=
  let n := structSize * header.item_count
  let tableBytes := fp.take n
  if crc32 tableBytes = header.crc32 then
    if n ≤ fp.length then
      some ((List.range header.item_count).map
              fun idx => ((tableBytes.drop (idx * structSize)).take structSize),
            fp.drop n)
    else none
  else none

theorem shiftStep_lt {c : Nat} (h : c < 2 ^ 32) : shiftStep c < 2 ^ 32 := by
  have h1 : c / 2 < 2 ^ 32 := by omega
  have h2 : (if c % 2 = 1 then crcPoly else 0) < 2 ^ 32 := by
    split <;> norm_num [crcPoly]
  exact Nat.xor_lt_two_pow h1 h2

theorem shiftStep_inj {c c' : Nat} (hc : c < 2 ^ 32) (hc' : c' < 2 ^ 32)
    (h : shiftStep c = shiftStep c') : c = c' := by
  have hbit : Nat.testBit crcPoly 31 = true := by decide
  have key : ∀ x : Nat, x < 2 ^ 32 → Nat.testBit (shiftStep x) 31 = decide (x % 2 = 1) := by
    intro x hx
    have hdx : x / 2 < 2 ^ 31 := by omega
    by_cases p : x % 2 = 1
    · simp [shiftStep, p, Nat.testBit_xor, Nat.testBit_lt_two_pow hdx, hbit]
    · simp [shiftStep, p, Nat.testBit_xor, Nat.testBit_lt_two_pow hdx]
  have hpar : (c % 2 = 1) ↔ (c' % 2 = 1) := by
    have h31 := congrArg (Nat.testBit · 31) h
    simp only [key c hc, key c' hc'] at h31
    exact decide_eq_decide.mp h31
  by_cases p : c % 2 = 1
  · have p' : c' % 2 = 1 := hpar.mp p
    rw [shiftStep, shiftStep, if_pos p, if_pos p'] at h
    have := Nat.xor_left_inj.mp h
    omega
  · have p' : ¬c' % 2 = 1 := fun hh => p (hpar.mpr hh)
    rw [shiftStep, shiftStep, if_neg p, if_neg p', Nat.xor_zero, Nat.xor_zero] at h
    omega

theorem shiftIter_lt (n : Nat) {c : Nat} (h : c < 2 ^ 32) : shiftIter n c < 2 ^ 32 := by
  induction n generalizing c with
  | zero => exact h
  | succ n ih => exact ih (shiftStep_lt h)

theorem shiftIter_inj (n : Nat) {c c' : Nat} (hc : c < 2 ^ 32) (hc' : c' < 2 ^ 32)
    (h : shiftIter n c = shiftIter n c') : c = c' := by
  induction n generalizing c c' with
  | zero => exact h
  | succ n ih => exact shiftStep_inj hc hc' (ih (shiftStep_lt hc) (shiftStep_lt hc') h)

theorem crcByte_lt {c b : Nat} (hc : c < 2 ^ 32) (hb : b < 256) : crcByte c b < 2 ^ 32 :=
  shiftIter_lt 8 (Nat.xor_lt_two_pow hc (by omega))

theorem crcByte_inj_left {c c' b : Nat} (hc : c < 2 ^ 32) (hc' : c' < 2 ^ 32) (hb : b < 256)
    (h : crcByte c b = crcByte c' b) : c = c' := by
  have hb32 : b < 2 ^ 32 := by omega
  have := shiftIter_inj 8 (Nat.xor_lt_two_pow hc hb32) (Nat.xor_lt_two_pow hc' hb32) h
  exact Nat.xor_left_inj.mp this

theorem crcByte_inj_right {c b b' : Nat} (hc : c < 2 ^ 32) (hb : b < 256) (hb' : b' < 256)
    (h : crcByte c b = crcByte c b') : b = b' := by
  have hb32 : b < 2 ^ 32 := by omega
  have hb32' : b' < 2 ^ 32 := by omega
  have := shiftIter_inj 8 (Nat.xor_lt_two_pow hc hb32) (Nat.xor_lt_two_pow hc hb32') h
  exact Nat.xor_right_inj.mp this

theorem foldl_crcByte_lt (bs : List Nat) (c : Nat) (hc : c < 2 ^ 32)
    (hbytes : ∀ b ∈ bs, b < 256) : bs.foldl crcByte c < 2 ^ 32 := by
  induction bs generalizing c with
  | nil => exact hc
  | cons b bs ih =>
      exact ih (crcByte c b) (crcByte_lt hc (hbytes b (by simp)))
        (fun x hx => hbytes x (by simp [hx]))

theorem foldl_crcByte_inj (bs : List Nat) (c c' : Nat) (hc : c < 2 ^ 32) (hc' : c' < 2 ^ 32)
    (hbytes : ∀ b ∈ bs, b < 256) (hne : c ≠ c') :
    bs.foldl crcByte c ≠ bs.foldl crcByte c' := by
  induction bs generalizing c c' with
  | nil => exact hne
  | cons b bs ih =>
      have hb : b < 256 := hbytes b (by simp)
      exact ih (crcByte c b) (crcByte c' b) (crcByte_lt hc hb) (crcByte_lt hc' hb)
        (fun x hx => hbytes x (by simp [hx]))
        (fun e => hne (crcByte_inj_left hc hc' hb e))

/-- Mutating any single byte of a block (to a different byte value)
changes its CRC32. -/
theorem crc32_set_ne (bs : List Nat) (i : Nat) (b' : Nat)
    (hbytes : ∀ b ∈ bs, b < 256) (hi : i < bs.length) (hb' : b' < 256)
    (hne : bs.get ⟨i, hi⟩ ≠ b') : crc32 (bs.set i b') ≠ crc32 bs := by
  have hdecomp : bs = bs.take i ++ bs.get ⟨i, hi⟩ :: bs.drop (i + 1) := by
    conv_lhs => rw [← List.take_append_drop i bs]
    rw [List.drop_eq_get_cons hi]
  have hset : bs.set i b' = bs.take i ++ b' :: bs.drop (i + 1) :=
    List.set_eq_take_cons_drop b' hi
  have hlen : (bs.take i).length = i := List.length_take_of_le (le_of_lt hi)
  have hpre : ∀ b ∈ bs.take i, b < 256 := fun b hb => hbytes b (List.mem_of_mem_take hb)
  have hsuf : ∀ b ∈ bs.drop (i + 1), b < 256 := fun b hb => hbytes b (List.mem_of_mem_drop hb)
  have hbi : bs.get ⟨i, hi⟩ < 256 := hbytes _ (List.get_mem bs i hi)
  have hstate : (bs.take i).foldl crcByte 0xFFFFFFFF < 2 ^ 32 :=
    foldl_crcByte_lt _ _ (by norm_num) hpre
  intro h
  apply hne
  have h2 : (bs.set i b').foldl crcByte 0xFFFFFFFF = bs.foldl crcByte 0xFFFFFFFF :=
    Nat.xor_left_inj.mp h
  rw [hset] at h2
  conv_rhs at h2 => rw [hdecomp]
  rw [List.foldl_append, List.foldl_append] at h2
  simp only [List.foldl_cons] at h2
  by_contra hne2
  exact foldl_crcByte_inj _ _ _
    (crcByte_lt hstate hb') (crcByte_lt hstate hbi) hsuf
    (fun e => hne2 ((crcByte_inj_right hstate hb' hbi e).symm)) h2

/-! ### `io.read_file_info` — magic, header struct and version check

`read_file_info` (`cp2077_extractor/cr2w/io.py`, lines 107–121) asserts
the 4-byte magic equals `b"CR2W"`, unpacks the 36-byte file header with
format `<IIQIIIII` (`header_structs.CR2WFileHeader`), and raises
`ValueError("Unsupported Version")` when
`file_header.version > 195 or file_header.version < 163`. -/

/-- The CR2W file header (`header_structs.CR2WFileHeader`). -/
structure CR2WFileHeader where
  version : Nat
  flags : Nat
  time_stamp : Nat
  build_version : Nat
  objects_end : Nat
  buffers_end : Nat
  crc32 : Nat
  num_chunks : Nat

/-- Failure cases of the leading part of `read_file_info`: a failed magic
assertion (`AssertionError`), a short read into `struct.unpack`
(`struct.error`), or the explicit `ValueError("Unsupported Version")`. -/
inductive ReadFileErr where
  | badMagic : ReadFileErr
  | truncated : ReadFileErr
  | unsupportedVersion : ReadFileErr
deriving DecidableEq

/-- Unpack `<IIQIIIII` (36 bytes, little-endian) into a `CR2WFileHeader`. -/
def unpackFileHeader (bs : List Nat) : CR2WFileHeader :=
  { version := leNat (bs.take 4)
    flags := leNat ((bs.drop 4).take 4)
    time_stamp := leNat ((bs.drop 8).take 8)
    build_version := leNat ((bs.drop 16).take 4)
    objects_end := leNat ((bs.drop 20).take 4)
    buffers_end := leNat ((bs.drop 24).take 4)
    crc32 := leNat ((bs.drop 28).take 4)
    num_chunks := leNat ((bs.drop 32).take 4) }

/-- The embedding of the leading part of `read_file_info` (lines 114–121):
magic assertion, header unpack, version range check.  On success it
returns the header and the remaining bytes of the file. -/
def read_file_info_header (fp : List Nat) : Except ReadFileErr (CR2WFileHeader × List Nat) :=
  if fp.take 4 = cr2wMagic then
    let rest := fp.drop 4
    if 36 ≤ rest.length then
      let header := unpackFileHeader (rest.take 36)
      if header.version > 195 ∨ header.version < 163 then .error .unsupportedVersion
      else .ok (header, rest.drop 36)
    else .error .truncated
  else .error .badMagic

/-! ### `io.read_file_info` — the string-pool loop

Lines 129–140 of `cp2077_extractor/cr2w/io.py` read null-terminated byte
strings while `fp.tell() < table_headers[0].offset +
table_headers[0].item_count`, keying each string by its start position
relative to the region and replacing an empty string by the literal
bytes `b"None"`.  The inner `while True` loop reads single bytes until a
`b"\0"`; at end-of-file `fp.read(1)` returns `b""` forever, so an
unterminated final string loops without end — modelled by `none`. -/

/-- Split off the longest zero-free initial segment and the bytes after
the first 0 byte; `none` when no 0 byte remains (the source's inner
loop would then never end). -/
def splitAtNull : List Nat → Option (List Nat × List Nat)
  | [] => none
  | b :: rest =>
      if b = 0 then some ([], rest)
      else match splitAtNull rest with
        | some (s, r) => some (b :: s, r)
        | none => none

theorem splitAtNull_length {bs s rest : List Nat} (h : splitAtNull bs = some (s, rest)) :
    bs.length = s.length + 1 + rest.length := by
  induction bs generalizing s rest with
  | nil => simp [splitAtNull] at h
  | cons b tl ih =>
      by_cases hb : b = 0
      · simp only [splitAtNull, hb, if_pos, Option.some.injEq, Prod.mk.injEq] at h
        obtain ⟨h1, h2⟩ := h
        simp only [← h1, ← h2, List.length_cons, List.length_nil]
        omega
      · simp only [splitAtNull, hb, ite_false] at h
        cases h2 : splitAtNull tl with
        | none => rw [h2] at h; simp at h
        | some p =>
            obtain ⟨s2, r2⟩ := p
            rw [h2] at h
            simp only [Option.some.injEq, Prod.mk.injEq] at h
            obtain ⟨h3, h4⟩ := h
            have := ih h2
            simp only [← h3, ← h4, List.length_cons]
            omega

/-- The embedding of the string-pool loop: `remaining` is the byte
suffix of the file at position `pos` (relative to the region start,
`fp.tell() - table_headers[0].offset`) and `endPos` is the region's
`item_count`.  Each recorded string is keyed by its start position;
an empty string is stored as `b"None"`. -/
def readStringsLoop (remaining : List Nat) (pos endPos : Nat) :
    Option (List (Nat × List Nat)) :=
  if pos < endPos then
    match h : splitAtNull remaining with
    | none => none
    | some (s, rest) =>
        match readStringsLoop rest (pos + s.length + 1) endPos with
        | none => none
        | some d => some ((pos, if s = [] then noneBytes else s) :: d)
  else some []
termination_by remaining.length
decreasing_by
  have := splitAtNull_length h
  omega

/-- The string-pool region read of `read_file_info`:
start at relative position 0 and stop once `item_count` bytes of the
region have been passed. -/
def readStringDict (region : List Nat) (item_count : Nat) : Option (List (Nat × List Nat)) :=
  readStringsLoop region 0 item_count

/-! ### `io.read_c_name` and `datatypes.get_chunk_variables`

`read_c_name` (`cp2077_extractor/cr2w/io.py`, lines 78–93) unpacks a
2-byte little-endian ordinal and asserts it is in range for
`names_list`, and that the resolved name is non-empty and not the
literal `b"None"`.

`get_chunk_variables` (`cp2077_extractor/cr2w/datatypes.py`,
lines 109–125) asserts that the first byte of the chunk is `b"\0"`
(`AssertionError` — the spec's `MalformedChunkError`), then loops while
`buffer.tell() < len(chunk) - 1`, reading per iteration: a property name
via `read_c_name`, a type name via `read_c_name`, a 4-byte little-endian
length minus 4, and that many value bytes.  Every exception inside the
loop body (short `struct.unpack` reads and the assertions of
`read_c_name` alike) is swallowed by the bare `except:` and terminates
the loop, returning the variables accumulated so far.

In the embeddings below the open file is the remaining byte suffix; the
guard `tell < len(chunk) - 1` becomes `2 ≤ remaining.length`.  A
negative unpacked size (`L < 4`) makes `buffer.read` consume all
remaining bytes, after which the loop guard fails; `buffer.read(n)` for
`n ≥ 0` returns at most `n` bytes and never raises, so a truncated value
read yields a short value and leaves the position at end-of-buffer. -/

/-- Name-ordinal resolution of `read_c_name` on an in-range 2-byte read:
`none` when the ordinal is out of range for `names_list`, or the
resolved name is empty or the literal `b"None"` (each a failed
`assert`). -/
def lookupName (names_list : List (List Nat)) (idx : Nat) : Option (List Nat) :=
  match names_list.get? idx with
  | none => none
  | some nm => if nm = [] ∨ nm = noneBytes then none else some nm

/-- The embedding of `read_c_name` on the remaining bytes of the open
file: unpack `<H`, resolve through `names_list`, return the name and the
remaining suffix.  A short read makes `struct.unpack` raise (`none`). -/
def read_c_name (names_list : List (List Nat)) (bs : List Nat) :
    Option (List Nat × List Nat) :=
  match bs with
  | b0 :: b1 :: rest =>
      match lookupName names_list (b0 + 256 * b1) with
      | none => none
      | some nm => some (nm, rest)
  | _ => none

/-- The `while` loop of `get_chunk_variables` over the remaining bytes
after the marker.  Each iteration needs the loop guard
(`2 ≤ bs.length`) and eight header bytes; when the guard holds but any
read or assertion fails, the bare `except:` ends the loop with the
variables accumulated so far (`[]` here, since the accumulator is the
returned tail).  When the unpacked length `L` is below 4 the
`buffer.read(L - 4)` call receives a negative count and consumes every
remaining byte, so the following guard check fails. -/
def chunkVarsLoop (names_list : List (List Nat)) (bs : List Nat) :
    List (List Nat × List Nat × List Nat) :=
  match bs with
  | n0 :: n1 :: t0 :: t1 :: l0 :: l1 :: l2 :: l3 :: bs3 =>
      match lookupName names_list (n0 + 256 * n1), lookupName names_list (t0 + 256 * t1) with
      | some var_c_name, some red_type_name =>
          let L := l0 + 256 * l1 + 65536 * l2 + 16777216 * l3
          if L < 4 then
            (var_c_name, red_type_name, bs3) :: chunkVarsLoop names_list []
          else
            (var_c_name, red_type_name, bs3.take (L - 4)) ::
              chunkVarsLoop names_list (bs3.drop (L - 4))
      | _, _ => []
  | _ => []
termination_by bs.length
decreasing_by
  · simp
  · simp only [List.length_cons, List.length_drop]
    omega

/-- The embedding of `datatypes.get_chunk_variables`: the marker-byte
assertion, then the property loop.  A chunk that is empty or does not
start with `0x00` fails the assertion (`none`) before any variable is
accumulated. -/
def get_chunk_variables (chunk : List Nat) (names_list : List (List Nat)) :
    Option (List (List Nat × List Nat × List Nat)) :=
  match chunk with
  | 0 :: rest => some (chunkVarsLoop names_list rest)
  | _ => none

/-! ### `datatypes.instantiate_type`, `parse_chunk` and `handle`

`parse_chunk` (lines 128–136) maps `instantiate_type` over the triples
returned by `get_chunk_variables`, building a keyword dictionary.
`instantiate_type` (lines 139–155) dispatches on the type looked up in
the static `_red_type_lookup` registry (lines 251–268): `Name` for
`b"ECookingPlatform"`, the little-endian `uint` reader for
`b"Uint8"`/`b"Uint16"`/`b"Uint32"`, Python `bool` truthiness for
`b"Bool"`, the `handle` resolver for `b"handle:IRenderResourceBlob"`,
raw-bytes wrappers for `b"serializationDeferredDataBuffer"` and
`b"array:rendRenderTextureBlobMipMapInfo"`, and `Chunk.from_chunk`
(recursive `parse_chunk` + snake-cased keyword binding,
`Chunk.from_cr2w_kwargs`, lines 82–93) for the seven registered
dataclass schemas.  An unregistered name raises `NotImplementedError`
(`lookup_type`, lines 100–106), modelled by `none`; the enum classes
added to the registry at import time from the `enums` module are not
modelled (no claim depends on them).

`handle` (lines 166–168) interprets the value bytes as a little-endian
unsigned integer, subtracts 1, and indexes `chunks` with the result
using Python list-index semantics: a negative index within `-len ..
-1` wraps around to the end of the list, and anything further out
raises `IndexError`.  The recursion through handles and nested chunks
is unbounded in the source (a cyclic handle graph recurses without
end); `fuel` bounds the recursion depth in the embedding and is spent
only where the source recurses. -/

/-- A decoded property value: the loosely-typed tree `parse_chunk`
produces (ints, bools, `(type, name)` tuples, raw-bytes wrapper
objects, and nested chunk objects holding their bound kwargs). -/
inductive Value where
  | uintV : Nat → Value
  | boolV : Bool → Value
  | nameV : List Nat → List Nat → Value
  | bytesV : List Nat → List Nat → Value
  | chunkV : List Nat → List (List Nat × Value) → Value

/-- Python list indexing `xs[i]`: negative indices count from the end;
an index out of range on either side raises `IndexError` (`none`). -/
def pyIdx {α : Type} (xs : List α) (i : Int) : Option α :=
  let j : Int := if i < 0 then i + xs.length else i
  if 0 ≤ j then xs.get? j.toNat else none

/-- Python dict insertion `d[k] = v`: an existing key keeps its
position and takes the new value, a fresh key is appended. -/
def dictInsert (d : List (List Nat × Value)) (k : List Nat) (v : Value) :
    List (List Nat × Value) :=
  if d.any fun p => p.1 = k then d.map fun p => if p.1 = k then (k, v) else p
  else d ++ [(k, v)]

/-- Whether the type name is one of the seven `Chunk` dataclass schemas
registered in `_red_type_lookup`. -/
def isChunkClassName (n : List Nat) : Bool :=
  n = sTextureGroupSetupName || n = rendRenderTextureResourceName ||
  n = rendRenderTextureBlobHeaderName || n = rendRenderTextureBlobSizeInfoName ||
  n = rendRenderTextureBlobTextureInfoName || n = rendRenderTextureBlobPCName ||
  n = cBitmapTextureName

/-- The embedding of `Chunk.from_cr2w_kwargs` key normalisation: each
wire property name is snake-cased and the results are gathered into a
dict (`{to_snake_case(k.decode("UTF-8")): v for k, v in kwargs.items()}`). -/
def from_cr2w_kwargs (kw : List (List Nat × Value)) : Option (List (List Nat × Value)) :=
  kw.foldlM (fun acc p =>
    match to_snake_case p.1 with
    | some k => some (dictInsert acc k p.2)
    | none => none) []

/-- The embedding of `datatypes.instantiate_type`, with the
`_red_type_lookup` dispatch inlined; the `handle` and nested-`Chunk`
branches recurse with one unit of fuel spent. -/
def instantiate_type (fuel : Nat) (red_type_name value : List Nat)
    (names_list : List (List Nat)) (chunks : List (List Nat × List Nat)) : Option Value :=
  if red_type_name = eCookingPlatformName then
    match names_list.get? (uint value) with
    | some nm => some (.nameV red_type_name nm)
    | none => none
  else if red_type_name = uint8Name ∨ red_type_name = uint16Name ∨
      red_type_name = uint32Name then
    some (.uintV (uint value))
  else if red_type_name = boolName then
    some (.boolV (decide (value ≠ [])))
  else if red_type_name = serializationDeferredDataBufferName ∨
      red_type_name = arrayRendMipMapInfoName then
    some (.bytesV red_type_name value)
  else if red_type_name = handleIRenderResourceBlobName then
    match fuel with
    | 0 => none
    | f + 1 =>
        match pyIdx chunks ((uint value : Int) - 1) with
        | some c => instantiate_type f c.2 c.1 names_list chunks
        | none => none
  else if isChunkClassName red_type_name then
    match fuel with
    | 0 => none
    | f + 1 =>
        match get_chunk_variables value names_list with
        | none => none
        | some vars =>
            match vars.foldlM (fun acc v =>
                match instantiate_type f v.2.1 v.2.2 names_list chunks with
                | some w => some (dictInsert acc v.1 w)
                | none => none) ([] : List (List Nat × Value)) with
            | none => none
            | some kw =>
                match from_cr2w_kwargs kw with
                | none => none
                | some kw2 => some (.chunkV red_type_name kw2)
  else none

/-- The embedding of `datatypes.handle` (lines 166–168): little-endian
value, minus 1, Python list indexing into `chunks`, then
`instantiate_type` on the referenced chunk's type name and raw bytes. -/
def handle (hv : List Nat) (names_list : List (List Nat))
    (chunks : List (List Nat × List Nat)) (fuel : Nat) : Option Value :=
  match pyIdx chunks ((uint hv : Int) - 1) with
  | some c => instantiate_type fuel c.2 c.1 names_list chunks
  | none => none

/-- The embedding of `datatypes.parse_chunk` (lines 128–136): decode the
property triples, then instantiate each value, accumulating a keyword
dictionary keyed by the wire property names. -/
def parse_chunk (fuel : Nat) (chunk : List Nat) (names_list : List (List Nat))
    (chunks : List (List Nat × List Nat)) : Option (List (List Nat × Value)) :=
  match get_chunk_variables chunk names_list with
  | none => none
  | some vars =>
      vars.foldlM (fun acc v =>
        match instantiate_type fuel v.2.1 v.2.2 names_list chunks with
        | some w => some (dictInsert acc v.1 w)
        | none => none) ([] : List (List Nat × Value))

/-! ### Supporting lemmas -/

theorem chunkVarsLoop_short (names_list : List (List Nat)) (bs : List Nat)
    (h : bs.length < 8) : chunkVarsLoop names_list bs = [] := by
  rcases bs with _ | ⟨a, _ | ⟨b, _ | ⟨c, _ | ⟨d, _ | ⟨e, _ | ⟨f, _ | ⟨g, rest⟩⟩⟩⟩⟩⟩⟩
  · simp [chunkVarsLoop]
  · simp [chunkVarsLoop]
  · simp [chunkVarsLoop]
  · simp [chunkVarsLoop]
  · simp [chunkVarsLoop]
  · simp [chunkVarsLoop]
  · simp [chunkVarsLoop]
  · rcases rest with _ | ⟨x, rest2⟩
    · simp [chunkVarsLoop]
    · exact absurd h (by simp)

/-- A synthetic property record for round-trip statements: name
ordinal, type ordinal and payload bytes. -/
structure PropRecord where
  nameOrd : Nat
  typeOrd : Nat
  value : List Nat

/-- Wire encoding of a property record: 2-byte little-endian name
ordinal, 2-byte little-endian type ordinal, 4-byte little-endian total
length `L = value.length + 4` (the length field includes its own four
bytes), then the `L - 4` payload bytes. -/
def encodeRecord (r : PropRecord) : List Nat :=
  r.nameOrd % 256 :: r.nameOrd / 256 :: r.typeOrd % 256 :: r.typeOrd / 256 ::
    (r.value.length + 4) % 256 :: (r.value.length + 4) / 256 % 256 ::
    (r.value.length + 4) / 65536 % 256 :: (r.value.length + 4) / 16777216 % 256 :: r.value

/-- Well-formedness of a synthetic record: both ordinals fit in two
bytes and resolve — per the `read_c_name` assertions — to names that
are in range, non-empty and not the literal `b"None"`; the payload is
made of byte values and the length field fits in four bytes. -/
def WFRecord (names_list : List (List Nat)) (r : PropRecord) : Prop :=
  r.nameOrd < 65536 ∧ r.typeOrd < 65536 ∧
    (lookupName names_list r.nameOrd).isSome = true ∧
    (lookupName names_list r.typeOrd).isSome = true ∧
    (∀ b ∈ r.value, b < 256) ∧ r.value.length + 4 < 4294967296

instance (names_list : List (List Nat)) (r : PropRecord) :
    Decidable (WFRecord names_list r) := by
  unfold WFRecord
  infer_instance

/-- The `(property name, type name, value bytes)` triple that one
well-formed record decodes to. -/
def decodedTriple (names_list : List (List Nat)) (r : PropRecord) :
    List Nat × List Nat × List Nat :=
  ((lookupName names_list r.nameOrd).getD [],
   (lookupName names_list r.typeOrd).getD [], r.value)

theorem chunkVarsLoop_encode_cons (names_list : List (List Nat)) (r : PropRecord)
    (tail : List Nat) (h : WFRecord names_list r) :
    chunkVarsLoop names_list (encodeRecord r ++ tail) =
      decodedTriple names_list r :: chunkVarsLoop names_list tail := by
  obtain ⟨h1, h2, h3, h4, h5, h6⟩ := h
  obtain ⟨nm, hnm⟩ := Option.isSome_iff_exists.mp h3
  obtain ⟨tn, htn⟩ := Option.isSome_iff_exists.mp h4
  have e1 : r.nameOrd % 256 + 256 * (r.nameOrd / 256) = r.nameOrd := by omega
  have e2 : r.typeOrd % 256 + 256 * (r.typeOrd / 256) = r.typeOrd := by omega
  have eL : (r.value.length + 4) % 256 + 256 * ((r.value.length + 4) / 256 % 256) +
      65536 * ((r.value.length + 4) / 65536 % 256) +
      16777216 * ((r.value.length + 4) / 16777216 % 256) = r.value.length + 4 := by
    omega
  have eS : r.value.length + 4 - 4 = r.value.length := by omega
  simp only [encodeRecord, List.cons_append]
  simp only [chunkVarsLoop, e1, e2, hnm, htn, eL, eS]
  rw [if_neg (by omega), List.take_left' rfl, List.drop_left' rfl]
  simp [decodedTriple, hnm, htn]

theorem chunkVarsLoop_encode (names_list : List (List Nat)) (rs : List PropRecord)
    (tail : List Nat) (h : ∀ r ∈ rs, WFRecord names_list r) :
    chunkVarsLoop names_list ((rs.map encodeRecord).flatten ++ tail) =
      rs.map (decodedTriple names_list) ++ chunkVarsLoop names_list tail := by
  induction rs with
  | nil => simp
  | cons r rs ih =>
      simp only [List.map_cons, List.flatten_cons, List.append_assoc]
      rw [chunkVarsLoop_encode_cons names_list r _ (h r (by simp))]
      rw [ih fun x hx => h x (by simp [hx])]
      simp

theorem readStringsLoop_nonempty (remaining : List Nat) (pos endPos : Nat) :
    ∀ d, readStringsLoop remaining pos endPos = some d → ∀ p ∈ d, p.2 ≠ [] := by
  induction remaining, pos, endPos using readStringsLoop.induct with
  | case1 remaining pos endPos hpos hsplit =>
      intro d h
      unfold readStringsLoop at h
      rw [if_pos hpos] at h
      split at h
      · exact absurd h (by simp)
      · rename_i s2 rest2 heq
        rw [hsplit] at heq
        cases heq
  | case2 remaining pos endPos hpos s rest hsplit hnone ih =>
      intro d h
      unfold readStringsLoop at h
      rw [if_pos hpos] at h
      split at h
      · rename_i heq
        rw [hsplit] at heq
        cases heq
      · rename_i s2 rest2 heq
        rw [hsplit] at heq
        injection heq with heq2
        injection heq2 with hA hB
        subst hA
        subst hB
        simp only [hnone] at h
        exact absurd h (by simp)
  | case3 remaining pos endPos hpos s rest hsplit d2 hsome ih =>
      intro d h
      unfold readStringsLoop at h
      rw [if_pos hpos] at h
      split at h
      · rename_i heq
        rw [hsplit] at heq
        cases heq
      · rename_i s2 rest2 heq
        rw [hsplit] at heq
        injection heq with heq2
        injection heq2 with hA hB
        subst hA
        subst hB
        simp only [hsome, Option.some.injEq] at h
        intro p hp
        rw [← h] at hp
        rcases List.mem_cons.mp hp with h3 | h3
        · rw [h3]
          by_cases hs : s = [] <;> simp [hs, noneBytes]
        · exact ih d2 hsome p h3
  | case4 remaining pos endPos hpos =>
      intro d h
      unfold readStringsLoop at h
      rw [if_neg hpos] at h
      simp only [Option.some.injEq] at h
      rw [← h]
      simp

/-! ### Claim theorems -/

/-- C1: with raw handle value 0 (bytes `00 00 00 00`) against a
non-empty export list, `handle` computes zero-based index `-1`, which
Python list indexing resolves to the **last** export: the code performs
an export-table lookup and returns that export's decoded value (here
`7`, the single export being `b"Uint8"` data `[7]`) instead of
producing an explicit unset value.  With value 2 against the 1-entry
list (zero-based index 1 = table length) the lookup raises a bare
`IndexError` rather than a distinct handle error. -/
theorem c1_handle_zero_wraps_to_last_export :
    handle [0, 0, 0, 0] [] [([7], uint8Name)] 0 = some (Value.uintV 7) ∧
    handle [2, 0, 0, 0] [] [([7], uint8Name)] 0 = none :=
  ⟨rfl, rfl⟩

/-- C2: `to_snake_case` does not split an uppercase run followed by a
lowercase letter: `"ABc"` (bytes `[65, 66, 99]`) yields `"abc"`
(`[97, 98, 99]`) and not `"a_bc"` (`[97, 95, 98, 99]`), because line 148
of `utils.py` applies `_case_boundary_re` (which can no longer match)
instead of `_single_letters_re`, so the second kind of boundary is never
separated. -/
theorem c2_no_uppercase_run_split :
    to_snake_case [65, 66, 99] = some [97, 98, 99] ∧
    to_snake_case [65, 66, 99] ≠ some [97, 95, 98, 99] := by
  constructor
  · decide
  · decide

/-- C3: round-trip — decoding the chunk made of the leading `0x00`
marker followed by the concatenated encodings of the well-formed
records `rs` yields exactly their `(property name, type name, value
bytes)` triples in input order, each value being the record's `L - 4`
payload bytes. -/
theorem c3_property_stream_roundtrip (names_list : List (List Nat)) (rs : List PropRecord)
    (h : ∀ r ∈ rs, WFRecord names_list r) :
    get_chunk_variables (0 :: (rs.map encodeRecord).flatten) names_list =
      some (rs.map (decodedTriple names_list)) := by
  have h0 : chunkVarsLoop names_list [] = [] := chunkVarsLoop_short _ _ (by simp)
  have key := chunkVarsLoop_encode names_list rs [] h
  rw [List.append_nil, h0, List.append_nil] at key
  show some (chunkVarsLoop names_list ((rs.map encodeRecord).flatten)) = _
  rw [key]

/-- Names list shared by the concrete decoder witnesses:
`b"a"` and `b"b"`. -/
def sampleNames : List (List Nat) := [[97], [98]]

/-- Two concrete well-formed records for the decoder witnesses. -/
def sampleRecords : List PropRecord :=
  [{ nameOrd := 0, typeOrd := 1, value := [7, 7] },
   { nameOrd := 1, typeOrd := 0, value := [] }]

/-- Witness for C3: the two concrete records decode to their two
triples. -/
theorem c3_property_stream_roundtrip_witness :
    (∀ r ∈ sampleRecords, WFRecord sampleNames r) ∧
    get_chunk_variables (0 :: (sampleRecords.map encodeRecord).flatten) sampleNames =
      some (sampleRecords.map (decodedTriple sampleNames)) :=
  ⟨by decide, c3_property_stream_roundtrip sampleNames sampleRecords (by decide)⟩

/-- C4: appending 1 to 3 stray trailing bytes to a well-formed property
stream does not make decoding fail — the decoder returns exactly the
triples of the well-formed records and silently drops the trailing
fragment (the read underflow inside the loop ends the loop and returns
what was accumulated). -/
theorem c4_trailing_bytes_dropped (names_list : List (List Nat)) (rs : List PropRecord)
    (stray : List Nat) (h : ∀ r ∈ rs, WFRecord names_list r)
    (hs1 : 1 ≤ stray.length) (hs3 : stray.length ≤ 3) :
    get_chunk_variables (0 :: ((rs.map encodeRecord).flatten ++ stray)) names_list =
      some (rs.map (decodedTriple names_list)) := by
  have h0 : chunkVarsLoop names_list stray = [] := chunkVarsLoop_short _ _ (by omega)
  have key := chunkVarsLoop_encode names_list rs stray h
  rw [h0, List.append_nil] at key
  show some (chunkVarsLoop names_list ((rs.map encodeRecord).flatten ++ stray)) = _
  rw [key]

/-- Witness for C4: the two concrete records with two stray bytes
appended still decode to exactly the two triples. -/
theorem c4_trailing_bytes_dropped_witness :
    (∀ r ∈ sampleRecords, WFRecord sampleNames r) ∧
    get_chunk_variables (0 :: ((sampleRecords.map encodeRecord).flatten ++ [9, 9]))
        sampleNames = some (sampleRecords.map (decodedTriple sampleNames)) :=
  ⟨by decide,
   c4_trailing_bytes_dropped sampleNames sampleRecords [9, 9] (by decide) (by decide)
     (by decide)⟩

/-- C5: a chunk whose first byte is not `0x00` fails the marker
assertion before any property triple is accumulated — both
`get_chunk_variables` and `parse_chunk` fail outright, so no property
mapping is partially populated — while a chunk whose first byte is
`0x00` passes the marker check and enters the property loop. -/
theorem c5_leading_marker (chunk : List Nat) (names_list : List (List Nat))
    (chunks : List (List Nat × List Nat)) (fuel : Nat) :
    (chunk.head? ≠ some 0 →
      get_chunk_variables chunk names_list = none ∧
      parse_chunk fuel chunk names_list chunks = none) ∧
    (∀ rest, chunk = 0 :: rest →
      get_chunk_variables chunk names_list = some (chunkVarsLoop names_list rest)) := by
  constructor
  · intro hne
    cases chunk with
    | nil => exact ⟨rfl, rfl⟩
    | cons b rest =>
        cases b with
        | zero => exact absurd rfl hne
        | succ n => exact ⟨rfl, rfl⟩
  · intro rest h
    subst h
    rfl

/-- Witness for C5: the chunk `[1, 2, 3]` (marker byte 1) fails both
decoders. -/
theorem c5_leading_marker_witness :
    get_chunk_variables [1, 2, 3] [] = none ∧ parse_chunk 0 [1, 2, 3] [] [] = none :=
  (c5_leading_marker [1, 2, 3] [] [] 0).1 (by decide)

/-- C6: `read_tables` checks the CRC32 of the raw `item_count ×
struct_size` block against the directory entry's declared checksum
before unpacking any record, and mutating any single byte inside the
block (keeping the declared checksum) always changes the block's CRC32,
so the mutated read fails the checksum assertion. -/
theorem c6_single_byte_mutation_fails_checksum (fp : List Nat) (structSize : Nat)
    (header : CR2WTable) (i b' : Nat) (hbytes : ∀ b ∈ fp, b < 256)
    (hi : i < structSize * header.item_count) (hb' : b' < 256)
    (hne : fp.get? i ≠ some b')
    (hok : read_tables fp structSize header ≠ none) :
    read_tables (fp.set i b') structSize header = none := by
  have hcrc : crc32 (fp.take (structSize * header.item_count)) = header.crc32 := by
    by_contra hc
    exact hok (by simp [read_tables, hc])
  have hlen : structSize * header.item_count ≤ fp.length := by
    by_contra hc
    exact hok (by simp [read_tables, hcrc, hc])
  have hif : i < fp.length := lt_of_lt_of_le hi hlen
  have hgd : fp.get? i = some (fp.get ⟨i, hif⟩) := List.get?_eq_get hif
  have hneb : fp.get ⟨i, hif⟩ ≠ b' := by
    intro e
    rw [e] at hgd
    exact hne hgd
  have hitake : i < (fp.take (structSize * header.item_count)).length := by
    simp only [List.length_take]
    omega
  have hget_take : (fp.take (structSize * header.item_count)).get ⟨i, hitake⟩ =
      fp.get ⟨i, hif⟩ := by
    simp [List.get_eq_getElem, List.getElem_take]
  have hbytes_take : ∀ b ∈ fp.take (structSize * header.item_count), b < 256 :=
    fun b hb => hbytes b (List.mem_of_mem_take hb)
  have hcrcne := crc32_set_ne (fp.take (structSize * header.item_count)) i b'
    hbytes_take hitake hb' (by rw [hget_take]; exact hneb)
  simp only [read_tables, List.set_take]
  rw [if_neg (by rw [← hcrc]; exact hcrcne)]

/-- Witness for C6: a one-record, one-byte table block `[0]` whose
declared checksum `3523407757` is its CRC32; flipping the byte to 1
makes the read fail. -/
theorem c6_single_byte_mutation_fails_checksum_witness :
    read_tables [0] 1 ⟨0, 1, 3523407757⟩ ≠ none ∧
    read_tables (([0] : List Nat).set 0 1) 1 ⟨0, 1, 3523407757⟩ = none :=
  ⟨by decide,
   c6_single_byte_mutation_fails_checksum [0] 1 ⟨0, 1, 3523407757⟩ 0 1 (by decide)
     (by decide) (by decide) (by decide) (by decide)⟩

/-- C7: the leading part of `read_file_info` succeeds past the version
check exactly when the header's version field lies in `[163, 195]`, and
raises `ValueError("Unsupported Version")` exactly when it lies
outside. -/
theorem c7_version_range (fp : List Nat) (v : Nat) (hmagic : fp.take 4 = cr2wMagic)
    (hlen : 36 ≤ (fp.drop 4).length) (hv : v = leNat ((fp.drop 4).take 4)) :
    (163 ≤ v ∧ v ≤ 195 →
      ∃ hdr rest, read_file_info_header fp = .ok (hdr, rest) ∧ hdr.version = v) ∧
    (v < 163 ∨ 195 < v → read_file_info_header fp = .error .unsupportedVersion) := by
  have hver : (unpackFileHeader ((fp.drop 4).take 36)).version = v := by
    rw [hv]
    simp [unpackFileHeader, List.take_take]
  constructor
  · rintro ⟨ha, hb⟩
    refine ⟨unpackFileHeader ((fp.drop 4).take 36), (fp.drop 4).drop 36, ?_, hver⟩
    unfold read_file_info_header
    rw [if_pos hmagic, if_pos hlen, if_neg (by rw [hver]; omega)]
  · intro hout
    unfold read_file_info_header
    rw [if_pos hmagic, if_pos hlen, if_pos (by rw [hver]; omega)]

/-- A 40-byte header whose version field is `v` and whose other fields
are zero. -/
def sampleHeaderBytes (v : Nat) : List Nat :=
  cr2wMagic ++ [v % 256, v / 256 % 256, 0, 0] ++ List.replicate 32 0

/-- Witness for C7: version 180 is accepted; versions 162 and 196 are
rejected with the unsupported-version error. -/
theorem c7_version_range_witness :
    (∃ hdr rest, read_file_info_header (sampleHeaderBytes 180) = .ok (hdr, rest) ∧
      hdr.version = 180) ∧
    read_file_info_header (sampleHeaderBytes 162) = .error .unsupportedVersion ∧
    read_file_info_header (sampleHeaderBytes 196) = .error .unsupportedVersion :=
  ⟨(c7_version_range (sampleHeaderBytes 180) 180 (by decide) (by decide) (by decide)).1
     (by decide),
   (c7_version_range (sampleHeaderBytes 162) 162 (by decide) (by decide) (by decide)).2
     (by decide),
   (c7_version_range (sampleHeaderBytes 196) 196 (by decide) (by decide) (by decide)).2
     (by decide)⟩

/-- C8: every offset recorded by the string-pool loop maps to a
non-empty byte string — an empty null-terminated string is stored as
the literal bytes `b"None"`, so no lookup of a recorded offset returns
the empty string. -/
theorem c8_stringpool_nonempty (region : List Nat) (item_count : Nat)
    (d : List (Nat × List Nat)) (h : readStringDict region item_count = some d) :
    ∀ p ∈ d, p.2 ≠ [] :=
  readStringsLoop_nonempty region 0 item_count d h

/-- Witness for C8: the region `"A\0\0"` records `b"A"` at offset 0 and
`b"None"` (for the empty string) at offset 2, both non-empty. -/
theorem c8_stringpool_nonempty_witness :
    readStringDict [65, 0, 0] 3 = some [(0, [65]), (2, noneBytes)] ∧
    ∀ p ∈ [((0 : Nat), [65]), (2, noneBytes)], p.2 ≠ ([] : List Nat) := by
  have he : readStringDict [65, 0, 0] 3 = some [(0, [65]), (2, noneBytes)] := by
    simp [readStringDict, readStringsLoop, splitAtNull, noneBytes]
  exact ⟨he, c8_stringpool_nonempty [65, 0, 0] 3 _ he⟩

/-- C9: chunk decoding is deterministic — two runs of `parse_chunk` on
the same raw chunk bytes, names list and chunks list (with the same
recursion bound) produce structurally equal property trees.  The
embedded decoder is a pure function of its inputs — the source decoder
likewise consults no mutable or ambient state — so the two-run equality
holds definitionally. -/
theorem c9_parse_chunk_deterministic (fuel : Nat) (chunk : List Nat)
    (names_list : List (List Nat)) (chunks : List (List Nat × List Nat)) :
    parse_chunk fuel chunk names_list chunks = parse_chunk fuel chunk names_list chunks :=
  rfl

/-- C10: the unsigned-integer decoder is total over all value-byte
lengths — a `Uint8`/`Uint16`/`Uint32` property always decodes to the
little-endian value of its bytes without failing, and the empty byte
string decodes to 0. -/
theorem c10_uint_total (fuel : Nat) (value : List Nat) (names_list : List (List Nat))
    (chunks : List (List Nat × List Nat)) :
    instantiate_type fuel uint8Name value names_list chunks =
      some (Value.uintV (uint value)) ∧
    instantiate_type fuel uint16Name value names_list chunks =
      some (Value.uintV (uint value)) ∧
    instantiate_type fuel uint32Name value names_list chunks =
      some (Value.uintV (uint value)) ∧
    uint [] = 0 := by
  refine ⟨?_, ?_, ?_, rfl⟩ <;> cases fuel <;> rfl
